import Mathlib

/-!
Verification of the detection-stream processing core of a multi-QR-code
scanner (React/TypeScript).  The definitions below are a shallow embedding
of `src/App.tsx` and `src/GuideFrame.tsx`:

* the fingerprinter `btoa(encodeURIComponent(text)).replace(/=/g, '')`
  (App.tsx line 181), modelled down to UTF-8 percent-encoding and base64;
* the aggregator `addQRCode` with its per-fingerprint cooldown, inline
  purge of the recent-scan table, and capacity-driven eviction
  (App.tsx lines 180-249);
* guide-region computation and containment (`calculateGuideSize`,
  `isQRInGuide`, GuideFrame.tsx lines 35-81) and the display-bounds
  construction of the scan cycle (App.tsx lines 350-379);
* the scan-cycle result dispatch, guide state updates, timers and the
  adaptive scan-interval controller (App.tsx lines 320-475);
* `resetList` (App.tsx lines 546-553).

Characters and strings are lists of Unicode code points (`List Nat`),
timestamps are `Nat` milliseconds (`Date.now()`), screen coordinates are
`ℚ`.  JavaScript `Map`s are association lists in insertion order, mirroring
ECMAScript `Map` iteration semantics.
-/

namespace QR

/-! ## Constants (App.tsx lines 7-17) -/

def SCAN_COOLDOWN_DURATION : Nat := 3000
def SCAN_HISTORY_TTL : Nat := 10000
def MAX_RECENT_SCANS : Nat := 20
def MAX_UNIQUE_RESULTS : Nat := 50
def SCAN_INTERVAL_MIN : Nat := 100
def SCAN_INTERVAL_MAX : Nat := 500
def SCAN_INTERVAL_DEFAULT : Nat := 200
def READBARCODES_TIMEOUT : Nat := 1000

/-! ## Fingerprinter

`const hash = btoa(encodeURIComponent(text)).replace(/=/g, '')`
(App.tsx line 181).  `encodeURIComponent` leaves the unreserved characters
`A-Z a-z 0-9 - _ . ! ~ * ' ( )` as-is and percent-encodes every other
character as the uppercase-hex `%XX` sequence of its UTF-8 bytes; `btoa`
is standard base64 with `=` padding. -/

def isUnreservedChar (c : Nat) : Bool :=
  (65 ≤ c && c ≤ 90) || (97 ≤ c && c ≤ 122) || (48 ≤ c && c ≤ 57) ||
  c == 45 || c == 95 || c == 46 || c == 33 || c == 126 || c == 42 ||
  c == 39 || c == 40 || c == 41

/-- Uppercase hexadecimal digit character for a value below 16. -/
def hexDigit (n : Nat) : Nat := if n < 10 then 48 + n else 55 + n

/-- Percent-escape of one byte: `%` followed by two uppercase hex digits. -/
def pctByte (b : Nat) : List Nat := [37, hexDigit (b / 16), hexDigit (b % 16)]

/-- UTF-8 byte sequence of one Unicode code point. -/
def utf8Bytes (c : Nat) : List Nat :=
  if c < 128 then [c]
  else if c < 2048 then [192 + c / 64, 128 + c % 64]
  else if c < 65536 then [224 + c / 4096, 128 + c / 64 % 64, 128 + c % 64]
  else [240 + c / 262144, 128 + c / 4096 % 64, 128 + c / 64 % 64, 128 + c % 64]

def encodeURIComponentChar (c : Nat) : List Nat :=
  if isUnreservedChar c then [c] else (utf8Bytes c).flatMap pctByte

def encodeURIComponentL (s : List Nat) : List Nat :=
  s.flatMap encodeURIComponentChar

/-- Character of the standard base64 alphabet at index `n < 64`. -/
def b64Char (n : Nat) : Nat :=
  if n < 26 then 65 + n
  else if n < 52 then 71 + n
  else if n < 62 then n - 4
  else if n = 62 then 43
  else 47

/-- `btoa`: base64 of a byte string, three input bytes per four output
characters, with `=` (code 61) padding for a 1- or 2-byte tail. -/
def btoaL : List Nat → List Nat
  | [] => []
  | [b1] => [b64Char (b1 / 4), b64Char (b1 % 4 * 16), 61, 61]
  | [b1, b2] => [b64Char (b1 / 4), b64Char (b1 % 4 * 16 + b2 / 16),
      b64Char (b2 % 16 * 4), 61]
  | b1 :: b2 :: b3 :: rest =>
      b64Char (b1 / 4) :: b64Char (b1 % 4 * 16 + b2 / 16) ::
      b64Char (b2 % 16 * 4 + b3 / 64) :: b64Char (b3 % 64) :: btoaL rest

/-- App.tsx line 181: `btoa(encodeURIComponent(text)).replace(/=/g, '')`. -/
def fingerprint (s : List Nat) : List Nat :=
  (btoaL (encodeURIComponentL s)).filter (fun c => decide (c ≠ 61))

/-- A code point a JavaScript string can submit to `encodeURIComponent`. -/
def ValidChar (c : Nat) : Prop := c < 1114112

/-! ### Injectivity of the fingerprinter (claim C5)

The proof is by cancellation: the percent-encoded form of a single
character can be cancelled from the front of an encoded string, and the
(padding-stripped) base64 form of a byte string is injective because the
base64 alphabet never contains the padding character. -/

theorem isUnreservedChar_lt {c : Nat} (h : isUnreservedChar c = true) :
    c < 128 ∧ c ≠ 37 := by
  simp only [isUnreservedChar, Bool.or_eq_true, Bool.and_eq_true,
    decide_eq_true_eq, beq_iff_eq] at h
  omega

theorem hexDigit_lt (n : Nat) (h : n < 16) : hexDigit n < 128 := by
  simp only [hexDigit]; split <;> omega

theorem hexDigit_inj {a b : Nat} (ha : a < 16) (hb : b < 16)
    (h : hexDigit a = hexDigit b) : a = b := by
  simp only [hexDigit] at h; split at h <;> split at h <;> omega

/-- First byte of the UTF-8 encoding of a code point. -/
def fb (c : Nat) : Nat :=
  if c < 128 then c
  else if c < 2048 then 192 + c / 64
  else if c < 65536 then 224 + c / 4096
  else 240 + c / 262144

theorem fb_lt {c : Nat} (h : c < 1114112) : fb c < 256 := by
  simp only [fb]; split_ifs <;> omega

theorem utf8Bytes_1 {c : Nat} (h : c < 128) : utf8Bytes c = [c] := by
  simp [utf8Bytes, h]

theorem utf8Bytes_2 {c : Nat} (h1 : 128 ≤ c) (h2 : c < 2048) :
    utf8Bytes c = [192 + c / 64, 128 + c % 64] := by
  simp only [utf8Bytes]
  rw [if_neg (by omega), if_pos h2]

theorem utf8Bytes_3 {c : Nat} (h1 : 2048 ≤ c) (h2 : c < 65536) :
    utf8Bytes c = [224 + c / 4096, 128 + c / 64 % 64, 128 + c % 64] := by
  simp only [utf8Bytes]
  rw [if_neg (by omega), if_neg (by omega), if_pos h2]

theorem utf8Bytes_4 {c : Nat} (h1 : 65536 ≤ c) :
    utf8Bytes c =
      [240 + c / 262144, 128 + c / 4096 % 64, 128 + c / 64 % 64, 128 + c % 64] := by
  simp only [utf8Bytes]
  rw [if_neg (by omega), if_neg (by omega), if_neg (by omega)]

/-- Every percent-escaped character encoding opens with `%` and the two hex
digits of its first UTF-8 byte. -/
theorem encChar_esc_shape {c : Nat} (hu : isUnreservedChar c = false)
    (hv : c < 1114112) :
    ∃ t, encodeURIComponentChar c =
      37 :: hexDigit (fb c / 16) :: hexDigit (fb c % 16) :: t := by
  rw [encodeURIComponentChar, if_neg (by simp [hu])]
  rcases Nat.lt_or_ge c 128 with h1 | h1
  · exact ⟨[], by simp [utf8Bytes_1 h1, pctByte, fb, h1]⟩
  rcases Nat.lt_or_ge c 2048 with h2 | h2
  · refine ⟨[37, hexDigit ((128 + c % 64) / 16), hexDigit ((128 + c % 64) % 16)], ?_⟩
    have hfb : fb c = 192 + c / 64 := by
      simp only [fb]; rw [if_neg (by omega), if_pos h2]
    rw [utf8Bytes_2 h1 h2, hfb]
    simp [pctByte]
  rcases Nat.lt_or_ge c 65536 with h3 | h3
  · refine ⟨[37, hexDigit ((128 + c / 64 % 64) / 16), hexDigit ((128 + c / 64 % 64) % 16),
      37, hexDigit ((128 + c % 64) / 16), hexDigit ((128 + c % 64) % 16)], ?_⟩
    have hfb : fb c = 224 + c / 4096 := by
      simp only [fb]; rw [if_neg (by omega), if_neg (by omega), if_pos h3]
    rw [utf8Bytes_3 h2 h3, hfb]
    simp [pctByte]
  · refine ⟨[37, hexDigit ((128 + c / 4096 % 64) / 16), hexDigit ((128 + c / 4096 % 64) % 16),
      37, hexDigit ((128 + c / 64 % 64) / 16), hexDigit ((128 + c / 64 % 64) % 16),
      37, hexDigit ((128 + c % 64) / 16), hexDigit ((128 + c % 64) % 16)], ?_⟩
    have hfb : fb c = 240 + c / 262144 := by
      simp only [fb]; rw [if_neg (by omega), if_neg (by omega), if_neg (by omega)]
    rw [utf8Bytes_4 h3, hfb]
    simp [pctByte]

/-- Equal first UTF-8 bytes force the two code points into the same UTF-8
length class. -/
theorem fb_class {c1 c2 : Nat} (h1 : c1 < 1114112) (h2 : c2 < 1114112)
    (hfb : fb c1 = fb c2) :
    (c1 < 128 ∧ c2 < 128) ∨
    (128 ≤ c1 ∧ c1 < 2048 ∧ 128 ≤ c2 ∧ c2 < 2048) ∨
    (2048 ≤ c1 ∧ c1 < 65536 ∧ 2048 ≤ c2 ∧ c2 < 65536) ∨
    (65536 ≤ c1 ∧ 65536 ≤ c2) := by
  simp only [fb] at hfb
  split_ifs at hfb <;> omega

theorem encChar_cancel {c1 c2 : Nat} (h1 : c1 < 1114112) (h2 : c2 < 1114112)
    {r1 r2 : List Nat}
    (h : encodeURIComponentChar c1 ++ r1 = encodeURIComponentChar c2 ++ r2) :
    c1 = c2 ∧ r1 = r2 := by
  by_cases u1 : isUnreservedChar c1 <;> by_cases u2 : isUnreservedChar c2
  · rw [encodeURIComponentChar, if_pos u1, encodeURIComponentChar, if_pos u2] at h
    simp only [List.cons_append, List.nil_append, List.cons.injEq] at h
    exact ⟨h.1, h.2⟩
  · obtain ⟨t2, ht2⟩ := encChar_esc_shape (by simp [u2]) h2
    rw [ht2, encodeURIComponentChar, if_pos u1] at h
    simp only [List.cons_append, List.nil_append, List.cons.injEq] at h
    exact absurd h.1 (isUnreservedChar_lt u1).2
  · obtain ⟨t1, ht1⟩ := encChar_esc_shape (by simp [u1]) h1
    rw [ht1, encodeURIComponentChar, if_pos u2] at h
    simp only [List.cons_append, List.nil_append, List.cons.injEq] at h
    exact absurd h.1.symm (isUnreservedChar_lt u2).2
  · obtain ⟨t1, ht1⟩ := encChar_esc_shape (by simp [u1]) h1
    obtain ⟨t2, ht2⟩ := encChar_esc_shape (by simp [u2]) h2
    have hfb : fb c1 = fb c2 := by
      rw [ht1, ht2] at h
      simp only [List.cons_append, List.cons.injEq] at h
      have e1 := hexDigit_inj (Nat.div_lt_of_lt_mul (by simpa using fb_lt h1))
        (Nat.div_lt_of_lt_mul (by simpa using fb_lt h2)) h.2.1
      have e2 := hexDigit_inj (Nat.mod_lt _ (by omega)) (Nat.mod_lt _ (by omega)) h.2.2.1
      omega
    rw [encodeURIComponentChar, if_neg (by simp [u1]),
        encodeURIComponentChar, if_neg (by simp [u2])] at h
    rcases fb_class h1 h2 hfb with ⟨a1, a2⟩ | ⟨a1, a2, a3, a4⟩ | ⟨a1, a2, a3, a4⟩ | ⟨a1, a2⟩
    · rw [utf8Bytes_1 a1, utf8Bytes_1 a2] at h
      simp only [List.flatMap_cons, List.flatMap_nil, pctByte, List.append_nil,
        List.cons_append, List.nil_append, List.cons.injEq] at h
      have e1 := hexDigit_inj (by omega) (by omega) h.2.1
      have e2 := hexDigit_inj (by omega) (by omega) h.2.2.1
      exact ⟨by omega, h.2.2.2⟩
    · rw [utf8Bytes_2 a1 a2, utf8Bytes_2 a3 a4] at h
      simp only [List.flatMap_cons, List.flatMap_nil, pctByte, List.append_nil,
        List.cons_append, List.nil_append, List.cons.injEq] at h
      have e1 := hexDigit_inj (by omega) (by omega) h.2.1
      have e2 := hexDigit_inj (by omega) (by omega) h.2.2.1
      have e3 := hexDigit_inj (by omega) (by omega) h.2.2.2.2.1
      have e4 := hexDigit_inj (by omega) (by omega) h.2.2.2.2.2.1
      exact ⟨by omega, h.2.2.2.2.2.2⟩
    · rw [utf8Bytes_3 a1 a2, utf8Bytes_3 a3 a4] at h
      simp only [List.flatMap_cons, List.flatMap_nil, pctByte, List.append_nil,
        List.cons_append, List.nil_append, List.cons.injEq] at h
      have e1 := hexDigit_inj (by omega) (by omega) h.2.1
      have e2 := hexDigit_inj (by omega) (by omega) h.2.2.1
      have e3 := hexDigit_inj (by omega) (by omega) h.2.2.2.2.1
      have e4 := hexDigit_inj (by omega) (by omega) h.2.2.2.2.2.1
      have e5 := hexDigit_inj (by omega) (by omega) h.2.2.2.2.2.2.2.1
      have e6 := hexDigit_inj (by omega) (by omega) h.2.2.2.2.2.2.2.2.1
      exact ⟨by omega, h.2.2.2.2.2.2.2.2.2⟩
    · rw [utf8Bytes_4 a1, utf8Bytes_4 a2] at h
      simp only [List.flatMap_cons, List.flatMap_nil, pctByte, List.append_nil,
        List.cons_append, List.nil_append, List.cons.injEq] at h
      have e1 := hexDigit_inj (by omega) (by omega) h.2.1
      have e2 := hexDigit_inj (by omega) (by omega) h.2.2.1
      have e3 := hexDigit_inj (by omega) (by omega) h.2.2.2.2.1
      have e4 := hexDigit_inj (by omega) (by omega) h.2.2.2.2.2.1
      have e5 := hexDigit_inj (by omega) (by omega) h.2.2.2.2.2.2.2.1
      have e6 := hexDigit_inj (by omega) (by omega) h.2.2.2.2.2.2.2.2.1
      have e7 := hexDigit_inj (by omega) (by omega) h.2.2.2.2.2.2.2.2.2.2.1
      have e8 := hexDigit_inj (by omega) (by omega) h.2.2.2.2.2.2.2.2.2.2.2.1
      exact ⟨by omega, h.2.2.2.2.2.2.2.2.2.2.2.2⟩

theorem encChar_ne_nil {c : Nat} (hv : c < 1114112) :
    encodeURIComponentChar c ≠ [] := by
  by_cases u : isUnreservedChar c
  · rw [encodeURIComponentChar, if_pos u]; simp
  · obtain ⟨t, ht⟩ := encChar_esc_shape (by simp [u]) hv
    rw [ht]; simp

theorem encL_inj : ∀ {s1 s2 : List Nat}, (∀ c ∈ s1, ValidChar c) →
    (∀ c ∈ s2, ValidChar c) →
    encodeURIComponentL s1 = encodeURIComponentL s2 → s1 = s2
  | [], [], _, _, _ => rfl
  | [], c :: s, _, hv, h => by
    rw [encodeURIComponentL, encodeURIComponentL] at h
    simp only [List.flatMap_nil, List.flatMap_cons] at h
    exact absurd (List.append_eq_nil.mp h.symm).1
      (encChar_ne_nil (hv c (by simp)))
  | c :: s, [], hv, _, h => by
    rw [encodeURIComponentL, encodeURIComponentL] at h
    simp only [List.flatMap_nil, List.flatMap_cons] at h
    exact absurd (List.append_eq_nil.mp h).1 (encChar_ne_nil (hv c (by simp)))
  | c1 :: s1, c2 :: s2, hv1, hv2, h => by
    rw [encodeURIComponentL, encodeURIComponentL] at h
    simp only [List.flatMap_cons] at h
    obtain ⟨hc, hs⟩ := encChar_cancel (hv1 c1 (by simp)) (hv2 c2 (by simp)) h
    have := encL_inj (fun c hc => hv1 c (by simp [hc]))
      (fun c hc => hv2 c (by simp [hc])) hs
    simp [hc, this]

theorem b64Char_ne_61 (n : Nat) : b64Char n ≠ 61 := by
  simp only [b64Char]; split_ifs <;> omega

theorem b64Char_inj {a b : Nat} (ha : a < 64) (hb : b < 64)
    (h : b64Char a = b64Char b) : a = b := by
  simp only [b64Char] at h; split_ifs at h <;> omega

/-- The `=`-stripped base64 form, defined structurally.  `filter` over
`btoaL` computes it (`filter_btoaL`). -/
def stripBtoa : List Nat → List Nat
  | [] => []
  | [b1] => [b64Char (b1 / 4), b64Char (b1 % 4 * 16)]
  | [b1, b2] => [b64Char (b1 / 4), b64Char (b1 % 4 * 16 + b2 / 16),
      b64Char (b2 % 16 * 4)]
  | b1 :: b2 :: b3 :: rest =>
      b64Char (b1 / 4) :: b64Char (b1 % 4 * 16 + b2 / 16) ::
      b64Char (b2 % 16 * 4 + b3 / 64) :: b64Char (b3 % 64) :: stripBtoa rest

theorem filter_btoaL : ∀ l : List Nat,
    (btoaL l).filter (fun c => decide (c ≠ 61)) = stripBtoa l
  | [] => rfl
  | [b1] => by simp [btoaL, stripBtoa, List.filter, b64Char_ne_61]
  | [b1, b2] => by simp [btoaL, stripBtoa, List.filter, b64Char_ne_61]
  | b1 :: b2 :: b3 :: rest => by
    simp only [btoaL, stripBtoa, List.filter_cons,
      decide_eq_true_eq]
    rw [if_pos (b64Char_ne_61 _), if_pos (b64Char_ne_61 _),
      if_pos (b64Char_ne_61 _), if_pos (b64Char_ne_61 _)]
    rw [filter_btoaL rest]

theorem stripBtoa_inj : ∀ l1 l2 : List Nat, (∀ b ∈ l1, b < 256) →
    (∀ b ∈ l2, b < 256) → stripBtoa l1 = stripBtoa l2 → l1 = l2
  | [], [], _, _, _ => rfl
  | [], [_], _, _, h => by simp [stripBtoa] at h
  | [], [_, _], _, _, h => by simp [stripBtoa] at h
  | [], _ :: _ :: _ :: _, _, _, h => by simp [stripBtoa] at h
  | [_], [], _, _, h => by simp [stripBtoa] at h
  | [_, _], [], _, _, h => by simp [stripBtoa] at h
  | _ :: _ :: _ :: _, [], _, _, h => by simp [stripBtoa] at h
  | [a1], [b1], hv1, hv2, h => by
    simp only [stripBtoa, List.cons.injEq, and_true] at h
    have ha := hv1 a1 (by simp); have hb := hv2 b1 (by simp)
    have e1 := b64Char_inj (by omega) (by omega) h.1
    have e2 := b64Char_inj (by omega) (by omega) h.2
    have : a1 = b1 := by omega
    simp [this]
  | [a1], [b1, b2], _, _, h => by simp [stripBtoa] at h
  | [a1], b1 :: b2 :: b3 :: bs, _, _, h => by
    have := congrArg List.length h
    simp [stripBtoa] at this
  | [a1, a2], [b1], _, _, h => by simp [stripBtoa] at h
  | [a1, a2], [b1, b2], hv1, hv2, h => by
    simp only [stripBtoa, List.cons.injEq, and_true] at h
    have ha1 := hv1 a1 (by simp); have ha2 := hv1 a2 (by simp)
    have hb1 := hv2 b1 (by simp); have hb2 := hv2 b2 (by simp)
    have e1 := b64Char_inj (by omega) (by omega) h.1
    have e2 := b64Char_inj (by omega) (by omega) h.2.1
    have e3 := b64Char_inj (by omega) (by omega) h.2.2
    have : a1 = b1 ∧ a2 = b2 := by omega
    simp [this.1, this.2]
  | [a1, a2], b1 :: b2 :: b3 :: bs, _, _, h => by
    have := congrArg List.length h
    simp [stripBtoa] at this
  | a1 :: a2 :: a3 :: as, [b1], _, _, h => by
    have := congrArg List.length h
    simp [stripBtoa] at this
  | a1 :: a2 :: a3 :: as, [b1, b2], _, _, h => by
    have := congrArg List.length h
    simp [stripBtoa] at this
  | a1 :: a2 :: a3 :: as, b1 :: b2 :: b3 :: bs, hv1, hv2, h => by
    simp only [stripBtoa, List.cons.injEq] at h
    have ha1 := hv1 a1 (by simp); have ha2 := hv1 a2 (by simp)
    have ha3 := hv1 a3 (by simp)
    have hb1 := hv2 b1 (by simp); have hb2 := hv2 b2 (by simp)
    have hb3 := hv2 b3 (by simp)
    have e1 := b64Char_inj (by omega) (by omega) h.1
    have e2 := b64Char_inj (by omega) (by omega) h.2.1
    have e3 := b64Char_inj (by omega) (by omega) h.2.2.1
    have e4 := b64Char_inj (by omega) (by omega) h.2.2.2.1
    have heq : a1 = b1 ∧ a2 = b2 ∧ a3 = b3 := by omega
    have htail := stripBtoa_inj as bs
      (fun x hx => hv1 x (by simp [hx])) (fun x hx => hv2 x (by simp [hx]))
      h.2.2.2.2
    simp [heq.1, heq.2.1, heq.2.2, htail]

/-- Every character produced by `encodeURIComponent` is a byte (in fact
ASCII), so it is a legal input to `btoa`. -/
theorem encL_lt256 {s : List Nat} (hv : ∀ c ∈ s, ValidChar c) :
    ∀ x ∈ encodeURIComponentL s, x < 256 := by
  intro x hx
  rw [encodeURIComponentL, List.mem_flatMap] at hx
  obtain ⟨c, hc, hxc⟩ := hx
  have hvc : c < 1114112 := hv c hc
  rw [encodeURIComponentChar] at hxc
  split at hxc
  · rename_i hu
    simp only [List.mem_singleton] at hxc
    have := isUnreservedChar_lt hu
    omega
  · rw [List.mem_flatMap] at hxc
    obtain ⟨bb, hbb, hxb⟩ := hxc
    have hb256 : bb < 256 := by
      rw [utf8Bytes] at hbb
      split_ifs at hbb <;>
        simp only [List.mem_cons, List.mem_singleton, List.not_mem_nil,
          or_false] at hbb <;> omega
    rw [pctByte] at hxb
    simp only [List.mem_cons, List.mem_singleton, List.not_mem_nil,
      or_false] at hxb
    rcases hxb with h | h | h
    · omega
    · have := hexDigit_lt (bb / 16) (by omega); omega
    · have := hexDigit_lt (bb % 16) (by omega); omega

theorem fingerprint_inj {a b : List Nat} (ha : ∀ c ∈ a, ValidChar c)
    (hb : ∀ c ∈ b, ValidChar c) (h : fingerprint a = fingerprint b) :
    a = b := by
  rw [fingerprint, fingerprint, filter_btoaL, filter_btoaL] at h
  exact encL_inj ha hb
    (stripBtoa_inj _ _ (encL_lt256 ha) (encL_lt256 hb) h)

/-! ## JavaScript `Map` model

An ECMAScript `Map` iterates in insertion order; `set` on an existing key
updates the value in place, otherwise appends; `delete` removes the entry.
We model a map as an association list in iteration order. -/

section JSMap

variable {K V : Type} [DecidableEq K]

def mapGet (m : List (K × V)) (k : K) : Option V :=
  (m.find? (fun e => decide (e.1 = k))).map Prod.snd

def mapSet (m : List (K × V)) (k : K) (v : V) : List (K × V) :=
  if m.any (fun e => decide (e.1 = k)) then
    m.map (fun e => if e.1 = k then (k, v) else e)
  else m ++ [(k, v)]

def mapDelete (m : List (K × V)) (k : K) : List (K × V) :=
  m.filter (fun e => decide (e.1 ≠ k))

theorem mapSet_length_le (m : List (K × V)) (k : K) (v : V) :
    (mapSet m k v).length ≤ m.length + 1 := by
  rw [mapSet]; split
  · simp
  · simp

end JSMap

/-! ## Result Aggregator and Cooldown Filter (App.tsx lines 180-249)

`addQRCode` receives the decoded text; timestamps come from `Date.now()`,
passed here as the explicit parameter `now` (the source reads the clock
twice in the same tick: once as `now`, once as `nowDate`; both are the
same instant in this model). -/

structure UniqueQRResult where
  id : List Nat
  text : List Nat
  firstSeen : Nat
  lastSeen : Nat
  count : Nat
deriving DecidableEq, Repr

inductive GuideState where
  | waiting
  | scanning
  | success
  | error
deriving DecidableEq, Repr

/-- The `useState` cells of the `App` component that the processing core
reads or writes (App.tsx lines 31-40). -/
structure AppState where
  isScanning : Bool
  uniqueResults : List (List Nat × UniqueQRResult)
  guideState : GuideState
  lastScanTime : Nat
  scanInterval : Nat
  focusGuideOnly : Bool
  recentScans : List (List Nat × Nat)
deriving DecidableEq, Repr

/-- Initial values of the `useState` cells (App.tsx lines 31-40). -/
def initialState : AppState :=
  { isScanning := false
    uniqueResults := []
    guideState := .waiting
    lastScanTime := 0
    scanInterval := SCAN_INTERVAL_DEFAULT
    focusGuideOnly := false
    recentScans := [] }

/-- App.tsx lines 185-188: `const lastScanTime = recentScans.get(hash);
if (lastScanTime && now - lastScanTime < SCAN_COOLDOWN_DURATION) return
false`.  A stored timestamp of `0` is falsy in JavaScript, hence the
`t ≠ 0` conjunct. -/
def cooldownHit (rs : List (List Nat × Nat)) (hash : List Nat) (now : Nat) : Bool :=
  match mapGet rs hash with
  | some t => decide (t ≠ 0) && decide (now - t < SCAN_COOLDOWN_DURATION)
  | none => false

/-- App.tsx lines 194-199: delete entries with `now - time >
SCAN_HISTORY_TTL`. -/
def purgeOld (rs : List (List Nat × Nat)) (now : Nat) : List (List Nat × Nat) :=
  rs.filter (fun e => decide (¬ (now - e.2 > SCAN_HISTORY_TTL)))

/-- Comparator of `(a, b) => a[1] - b[1]` (App.tsx line 207): ascending by
timestamp. -/
def ascTime (a b : List Nat × Nat) : Prop := a.2 ≤ b.2

instance : DecidableRel ascTime := fun a b => Nat.decLe a.2 b.2

instance : IsTotal (List Nat × Nat) ascTime := ⟨fun a b => Nat.le_total a.2 b.2⟩

instance : IsTrans (List Nat × Nat) ascTime :=
  ⟨fun _ _ _ h1 h2 => Nat.le_trans h1 h2⟩

/-- Ascending sort by timestamp: `Array.from(newMap.entries()).sort((a, b)
=> a[1] - b[1])` (App.tsx lines 206-207); `insertionSort` with a non-strict
comparison is a stable sort, matching ECMAScript `Array.prototype.sort`. -/
def sortByTimeAsc (rs : List (List Nat × Nat)) : List (List Nat × Nat) :=
  rs.insertionSort ascTime

/-- App.tsx lines 204-209: if the map exceeds `MAX_RECENT_SCANS`, delete the
key with the smallest timestamp. -/
def evictOldestScan (rs : List (List Nat × Nat)) : List (List Nat × Nat) :=
  if rs.length > MAX_RECENT_SCANS then
    match sortByTimeAsc rs with
    | [] => rs
    | e :: _ => mapDelete rs e.1
  else rs

/-- The whole `setRecentScans` updater (App.tsx lines 190-212): purge stale
entries, record the new scan, then enforce the memory bound. -/
def updateRecentScans (rs : List (List Nat × Nat)) (hash : List Nat) (now : Nat) :
    List (List Nat × Nat) :=
  evictOldestScan (mapSet (purgeOld rs now) hash now)

/-- App.tsx lines 218-235: update an existing `UniqueQRResult` (bump
`count`, refresh `lastSeen`) or insert a fresh one. -/
def upsertUnique (ur : List (List Nat × UniqueQRResult)) (hash text : List Nat)
    (now : Nat) : List (List Nat × UniqueQRResult) :=
  match mapGet ur hash with
  | some existing =>
      mapSet ur hash { existing with lastSeen := now, count := existing.count + 1 }
  | none =>
      mapSet ur hash ⟨hash, text, now, now, 1⟩

/-- Comparator of `(a, b) => b[1].lastSeen.getTime() -
a[1].lastSeen.getTime()` (App.tsx line 240): descending by `lastSeen`. -/
def descLS (a b : List Nat × UniqueQRResult) : Prop :=
  b.2.lastSeen ≤ a.2.lastSeen

instance : DecidableRel descLS := fun a b => Nat.decLe b.2.lastSeen a.2.lastSeen

instance : IsTotal (List Nat × UniqueQRResult) descLS :=
  ⟨fun a b => Nat.le_total b.2.lastSeen a.2.lastSeen⟩

instance : IsTrans (List Nat × UniqueQRResult) descLS :=
  ⟨fun _ _ _ h1 h2 => Nat.le_trans h2 h1⟩

/-- Descending sort by lastSeen: `entries.sort((a, b) =>
b[1].lastSeen.getTime() - a[1].lastSeen.getTime())` (App.tsx lines
239-240). -/
def sortByLastSeenDesc (ur : List (List Nat × UniqueQRResult)) :
    List (List Nat × UniqueQRResult) :=
  ur.insertionSort descLS

/-- App.tsx lines 238-243: when the map exceeds `MAX_UNIQUE_RESULTS`, keep
the first `MAX_UNIQUE_RESULTS` entries of the descending-by-`lastSeen`
sort (`entries.slice(0, MAX_UNIQUE_RESULTS)`). -/
def capUnique (ur : List (List Nat × UniqueQRResult)) :
    List (List Nat × UniqueQRResult) :=
  if ur.length > MAX_UNIQUE_RESULTS then
    (sortByLastSeenDesc ur).take MAX_UNIQUE_RESULTS
  else ur

/-- `addQRCode` (App.tsx lines 180-249).  Returns whether the detection was
accepted, together with the next state; on a cooldown rejection nothing
changes. -/
def addQRCode (st : AppState) (text : List Nat) (now : Nat) : Bool × AppState :=
  let hash := fingerprint text
  if cooldownHit st.recentScans hash now then (false, st)
  else
    (true,
      { st with
        recentScans := updateRecentScans st.recentScans hash now
        uniqueResults := capUnique (upsertUnique st.uniqueResults hash text now) })

/-- App.tsx lines 546-553: `resetList` empties the unique-result map and
the recent-scan map and touches nothing else. -/
def resetList (st : AppState) : AppState :=
  { st with uniqueResults := [], recentScans := [] }

/-! ## Spatial Classifier (GuideFrame.tsx lines 19-81, App.tsx lines 350-379)

Screen coordinates are rationals; the `config` constants of
GuideFrame.tsx lines 27-33 (`baseRatio` 252x352, `screenCoverage` 0.6,
`minWidth` 200, `maxWidth` 400) are inlined. -/

structure GuideRegion where
  top : ℚ
  left : ℚ
  width : ℚ
  height : ℚ
  centerX : ℚ
  centerY : ℚ
deriving DecidableEq, Repr

/-- `calculateGuideSize` (GuideFrame.tsx lines 35-63). -/
def calculateGuideSize (containerWidth containerHeight : ℚ) : GuideRegion :=
  let ratio : ℚ := 352 / 252
  let w1 := containerWidth * (6 / 10)
  let h1 := w1 * ratio
  let h2 := if h1 > containerHeight * (6 / 10) then containerHeight * (6 / 10) else h1
  let w2 := if h1 > containerHeight * (6 / 10) then h2 / ratio else w1
  let width := max 200 (min 400 w2)
  let height := width * ratio
  let left := (containerWidth - width) / 2
  let top := (containerHeight - height) / 2
  ⟨top, left, width, height, left + width / 2, top + height / 2⟩

structure QRBounds where
  x : ℚ
  y : ℚ
  width : ℚ
  height : ℚ
deriving DecidableEq, Repr

/-- `isQRInGuide` (GuideFrame.tsx lines 65-81): centre of the given bounds,
tested against the guide rectangle expanded by `guide.width * 0.1` on every
side. -/
def isQRInGuide (qr : QRBounds) (g : GuideRegion) : Bool :=
  let cx := qr.x + qr.width / 2
  let cy := qr.y + qr.height / 2
  let tolerance := g.width * (1 / 10)
  decide (g.left - tolerance ≤ cx) && decide (cx ≤ g.left + g.width + tolerance) &&
  decide (g.top - tolerance ≤ cy) && decide (cy ≤ g.top + g.height + tolerance)

structure Pt where
  x : ℚ
  y : ℚ
deriving DecidableEq, Repr

/-- The decoder's corner geometry (`result.position`). -/
structure Quad where
  topLeft : Pt
  topRight : Pt
  bottomLeft : Pt
  bottomRight : Pt
deriving DecidableEq, Repr

/-- App.tsx lines 358-369: the scan cycle averages the four corners into a
centre point, divides by the video-to-display scale, and packages the
result as `displayBounds` — note that the centre, not a top-left corner,
lands in the `x`/`y` fields. -/
def displayBoundsOf (p : Quad) (scaleX scaleY : ℚ) : QRBounds :=
  let centerX := (p.topLeft.x + p.topRight.x + p.bottomLeft.x + p.bottomRight.x) / 4
  let centerY := (p.topLeft.y + p.topRight.y + p.bottomLeft.y + p.bottomRight.y) / 4
  ⟨centerX / scaleX, centerY / scaleY,
    |p.topRight.x - p.topLeft.x| / scaleX,
    |p.bottomLeft.y - p.topLeft.y| / scaleY⟩

/-- App.tsx line 371: the classification the scan cycle actually applies to
a detection with geometry. -/
def classifyInGuide (p : Quad) (scaleX scaleY : ℚ) (g : GuideRegion) : Bool :=
  isQRInGuide (displayBoundsOf p scaleX scaleY) g

/-! ## Scan Orchestrator (App.tsx lines 320-475)

One cycle, after the decode race has settled.  `setTimeout` callbacks are
modelled as a list of scheduled actions `(delay, action)` returned next to
the new state. -/

inductive TimerAction where
  | setGuide (g : GuideState)
  | setIntervalDefault
deriving DecidableEq, Repr

/-- Outcome of `Promise.race([scanPromise, timeoutPromise])`: a result
list (classified into in-guide and out-of-guide texts), the artificial
`readBarcodes timeout` rejection, or a genuine decoder failure. -/
inductive DecodeOutcome where
  | detections (inGuide outGuide : List (List Nat))
  | timeout
  | failure
deriving DecidableEq, Repr

/-- App.tsx lines 387-391: run `addQRCode` on every text in order and
remember whether any call accepted (`hasNewDetection`). -/
def foldAdd (st : AppState) (texts : List (List Nat)) (now : Nat) :
    Bool × AppState :=
  texts.foldl (fun acc t =>
    let r := addQRCode acc.2 t now
    (acc.1 || r.1, r.2)) (false, st)

/-- Which detections of a cycle reach `addQRCode` (App.tsx lines 385-407):
in-guide detections always do; out-of-guide detections only when there is
no in-guide detection at all and strictly more than 1000ms have passed
since `lastScanTime`. -/
def submittedTexts (inG outG : List (List Nat)) (lastScanTime now : Nat) :
    List (List Nat) :=
  if inG ≠ [] then inG
  else if outG ≠ [] ∧ now - lastScanTime > 1000 then outG
  else []

/-- App.tsx lines 337-423: state effects of the try-block after a
successful decode. -/
def handleScanResults (st : AppState) (inG outG : List (List Nat)) (now : Nat) :
    AppState × List (Nat × TimerAction) :=
  if inG.length > 0 ∨ outG.length > 0 then
    if inG ≠ [] then
      let r := foldAdd st inG now
      if r.1 then
        let st2 := { r.2 with guideState := GuideState.success, lastScanTime := now, scanInterval := SCAN_INTERVAL_MAX }
        (st2, [(300, .setGuide .scanning), (2000, .setIntervalDefault)])
      else (r.2, [])
    else if outG ≠ [] ∧ now - st.lastScanTime > 1000 then
      ((foldAdd st outG now).2, [])
    else (st, [])
  else
    (if st.guideState = .success then { st with guideState := .scanning } else st, [])

/-- App.tsx lines 460-465: additive-increase / subtractive-decrease
adjustment of the scan interval from the measured cycle latency. -/
def adjustInterval (i : Nat) (processingTime : ℚ) : Nat :=
  if processingTime > 100 then min (i + 50) SCAN_INTERVAL_MAX
  else if processingTime < 50 then max (i - 25) SCAN_INTERVAL_MIN
  else i

/-- One scan cycle after frame capture (App.tsx lines 320-475): dispatch on
the decode outcome — the catch-branch distinguishes the `readBarcodes
timeout` rejection (no guide change) from a genuine failure (guide goes to
`error` with a 1000ms revert timer) — then feed the measured latency to
the interval controller. -/
def scanCycleStep (st : AppState) (outcome : DecodeOutcome) (now : Nat)
    (processingTime : ℚ) : AppState × List (Nat × TimerAction) :=
  let r := match outcome with
    | .detections inG outG => handleScanResults st inG outG now
    | .timeout => (st, [])
    | .failure => ({ st with guideState := .error }, [(1000, .setGuide .scanning)])
  ({ r.1 with scanInterval := adjustInterval r.1.scanInterval processingTime }, r.2)

/-- A whole run: fold `addQRCode` over a list of `(text, timestamp)`
detection events. -/
def runAdds (st : AppState) (calls : List (List Nat × Nat)) : AppState :=
  calls.foldl (fun s c => (addQRCode s c.1 c.2).2) st

instance : DecidablePred ValidChar :=
  fun c => inferInstanceAs (Decidable (c < 1114112))

/-! ## Helper lemmas -/

theorem runAdds_inv (P : AppState → Prop)
    (hstep : ∀ s t n, P s → P (addQRCode s t n).2) :
    ∀ (calls : List (List Nat × Nat)) (st : AppState), P st → P (runAdds st calls)
  | [], _, h => h
  | c :: cs, st, h => by
    rw [runAdds, List.foldl_cons]
    exact runAdds_inv P hstep cs _ (hstep st c.1 c.2 h)

theorem capUnique_length_le (ur : List (List Nat × UniqueQRResult)) :
    (capUnique ur).length ≤ MAX_UNIQUE_RESULTS := by
  rw [capUnique]; split
  · simp
  · omega

theorem upsertUnique_length_le (ur : List (List Nat × UniqueQRResult))
    (h t : List Nat) (now : Nat) :
    (upsertUnique ur h t now).length ≤ ur.length + 1 := by
  rw [upsertUnique]; split <;> exact mapSet_length_le ur h _

theorem mem_mapSet_timestamps {rs : List (List Nat × Nat)} {h : List Nat}
    {now : Nat} {e : List Nat × Nat} (he : e ∈ mapSet rs h now) :
    e.2 = now ∨ e ∈ rs := by
  rw [mapSet] at he
  split at he
  · rw [List.mem_map] at he
    obtain ⟨e0, he0, hfe⟩ := he
    by_cases hk : e0.1 = h
    · left; rw [if_pos hk] at hfe; rw [← hfe]
    · right; rw [if_neg hk] at hfe; rw [← hfe]; exact he0
  · rw [List.mem_append] at he
    rcases he with he | he
    · right; exact he
    · left; simp only [List.mem_singleton] at he; rw [he]

theorem mem_purgeOld {rs : List (List Nat × Nat)} {now : Nat}
    {e : List Nat × Nat} (he : e ∈ purgeOld rs now) :
    e ∈ rs ∧ now - e.2 ≤ SCAN_HISTORY_TTL := by
  rw [purgeOld, List.mem_filter] at he
  refine ⟨he.1, ?_⟩
  have := he.2
  simp only [decide_eq_true_eq] at this
  omega

theorem mapDelete_length_lt {K V : Type} [DecidableEq K]
    {m : List (K × V)} {k : K} {v : V} (hm : (k, v) ∈ m) :
    (mapDelete m k).length < m.length := by
  rw [mapDelete]
  refine List.length_filter_lt_length_iff_exists.mpr ⟨(k, v), hm, ?_⟩
  simp

theorem mapDelete_subset {K V : Type} [DecidableEq K]
    {m : List (K × V)} {k : K} {e : K × V} (he : e ∈ mapDelete m k) : e ∈ m := by
  rw [mapDelete, List.mem_filter] at he
  exact he.1

/-- The effect of `addQRCode` on the pristine state: the cooldown table is
empty, so the detection is accepted and both maps receive their first
entry. -/
theorem addQRCode_initial (text : List Nat) (now : Nat) :
    addQRCode initialState text now =
      (true, ⟨false, [(fingerprint text, ⟨fingerprint text, text, now, now, 1⟩)],
        .waiting, 0, SCAN_INTERVAL_DEFAULT, false, [(fingerprint text, now)]⟩) := by
  simp [addQRCode, cooldownHit, mapGet, initialState, updateRecentScans, purgeOld,
    mapSet, evictOldestScan, upsertUnique, capUnique, MAX_RECENT_SCANS,
    MAX_UNIQUE_RESULTS]

/-! ## Claim theorems -/

/-- Claim C5: the fingerprint `btoa(encodeURIComponent(text)).replace(/=/g,
'')` is a pure, deterministic function of the text (it is a Lean function
of the text alone), and it is injective: distinct texts receive distinct
fingerprints. -/
theorem C5_fingerprint_injective (a b : List Nat)
    (ha : ∀ c ∈ a, ValidChar c) (hb : ∀ c ∈ b, ValidChar c) (hne : a ≠ b) :
    fingerprint a ≠ fingerprint b :=
  fun h => hne (fingerprint_inj ha hb h)

/-- Witness for C5 at the concrete texts "A" and "B". -/
theorem C5_fingerprint_injective_witness :
    (∀ c ∈ ([65] : List Nat), ValidChar c) ∧ (∀ c ∈ ([66] : List Nat), ValidChar c) ∧
    ([65] : List Nat) ≠ [66] ∧ fingerprint [65] ≠ fingerprint [66] :=
  ⟨by decide, by decide, by decide,
    C5_fingerprint_injective [65] [66] (by decide) (by decide) (by decide)⟩

/-- Claim C10: `resetList` empties exactly the unique-results map and the
recent-scans (cooldown) map; the scanning flag, guide state, scan
interval, and last-accepted timestamp are untouched. -/
theorem C10_resetList_frame (st : AppState) :
    (resetList st).uniqueResults = [] ∧ (resetList st).recentScans = [] ∧
    (resetList st).isScanning = st.isScanning ∧
    (resetList st).guideState = st.guideState ∧
    (resetList st).scanInterval = st.scanInterval ∧
    (resetList st).lastScanTime = st.lastScanTime ∧
    (resetList st).focusGuideOnly = st.focusGuideOnly :=
  ⟨rfl, rfl, rfl, rfl, rfl, rfl, rfl⟩

/-- Claim C7 (amended): a cooldown-table entry with a NONZERO timestamp
within the window forces `addQRCode` to return `false` with no state
change.  (The zero-timestamp exception is forced by the counterexample:
the source guards with the truthiness of the stored number.) -/
theorem C7_cooldown_rejects (st : AppState) (text : List Nat) (now t : Nat)
    (hget : mapGet st.recentScans (fingerprint text) = some t) (ht : t ≠ 0)
    (hwin : now - t < SCAN_COOLDOWN_DURATION) :
    addQRCode st text now = (false, st) := by
  have hc : cooldownHit st.recentScans (fingerprint text) now = true := by
    rw [cooldownHit, hget]
    simp [ht, hwin]
  simp [addQRCode, hc]

/-- Witness for C7 at a one-entry cooldown table with timestamp 5 and
`now = 100`. -/
theorem C7_cooldown_rejects_witness :
    addQRCode { initialState with recentScans := [(fingerprint [88], 5)] } [88] 100 =
      (false, { initialState with recentScans := [(fingerprint [88], 5)] }) :=
  C7_cooldown_rejects _ [88] 100 5 (by decide) (by decide) (by decide)

/-- Counterexample to C7 as stated: after an accepted detection at
`Date.now() = 0` the table stores timestamp 0; a resubmission at
`now = 100` satisfies the claim's condition `now - lastSuppressedAt <
3000`, yet `addQRCode` accepts (returns `true`) and mutates the state,
because `if (lastScanTime && ...)` treats the stored 0 as falsy. -/
theorem C7_counterexample :
    mapGet (addQRCode initialState [88] 0).2.recentScans (fingerprint [88]) = some 0 ∧
    (100 : Nat) - 0 < SCAN_COOLDOWN_DURATION ∧
    (addQRCode (addQRCode initialState [88] 0).2 [88] 100).1 = true ∧
    (addQRCode (addQRCode initialState [88] 0).2 [88] 100).2 ≠
      (addQRCode initialState [88] 0).2 := by decide

/-- Claim C2 (amended): starting from the empty aggregator with the first
submission at a NONZERO timestamp `t0`, a resubmission strictly within the
3000ms window is rejected leaving exactly one `UniqueResult` with count 1,
and a resubmission with gap exceeding the window is accepted, ending with
exactly one `UniqueResult` with count 2.  (The nonzero-start restriction
is forced by the counterexample at `t0 = 0`.) -/
theorem C2_cooldown_window (text : List Nat) (t0 t1 t2 : Nat) (h0 : t0 ≠ 0)
    (h1 : t1 - t0 < SCAN_COOLDOWN_DURATION)
    (h2 : t2 - t0 > SCAN_COOLDOWN_DURATION) :
    (addQRCode initialState text t0).1 = true ∧
    (addQRCode initialState text t0).2.uniqueResults =
      [(fingerprint text, ⟨fingerprint text, text, t0, t0, 1⟩)] ∧
    addQRCode (addQRCode initialState text t0).2 text t1 =
      (false, (addQRCode initialState text t0).2) ∧
    (addQRCode (addQRCode initialState text t0).2 text t2).1 = true ∧
    (addQRCode (addQRCode initialState text t0).2 text t2).2.uniqueResults =
      [(fingerprint text, ⟨fingerprint text, text, t0, t2, 2⟩)] := by
  have hinit := addQRCode_initial text t0
  have h2' : ¬ (t2 - t0 < SCAN_COOLDOWN_DURATION) := by
    rw [SCAN_COOLDOWN_DURATION] at h2 ⊢; omega
  refine ⟨by rw [hinit], by rw [hinit], ?_, ?_, ?_⟩
  · rw [hinit]
    simp [addQRCode, cooldownHit, mapGet, h0, h1]
  · rw [hinit]
    simp [addQRCode, cooldownHit, mapGet, h2']
  · rw [hinit]
    simp [addQRCode, cooldownHit, mapGet, h2', upsertUnique, mapSet, capUnique,
      MAX_UNIQUE_RESULTS]

/-- Witness for C2 at text "X" and times 1, 501, 3501 (the claim's
scenario shifted to a nonzero origin). -/
theorem C2_cooldown_window_witness :
    (addQRCode initialState [88] 1).1 = true ∧
    (addQRCode initialState [88] 1).2.uniqueResults =
      [(fingerprint [88], ⟨fingerprint [88], [88], 1, 1, 1⟩)] ∧
    addQRCode (addQRCode initialState [88] 1).2 [88] 501 =
      (false, (addQRCode initialState [88] 1).2) ∧
    (addQRCode (addQRCode initialState [88] 1).2 [88] 3501).1 = true ∧
    (addQRCode (addQRCode initialState [88] 1).2 [88] 3501).2.uniqueResults =
      [(fingerprint [88], ⟨fingerprint [88], [88], 1, 3501, 2⟩)] :=
  C2_cooldown_window [88] 1 501 3501 (by decide) (by decide) (by decide)

/-- Counterexample to C2 as stated (its scenario starts at `t = 0`, i.e.
`Date.now() = 0`): the resubmission of "X" at `t = 500` — strictly within
the 3000ms window — is ACCEPTED and the count becomes 2, because the
falsy stored timestamp 0 bypasses the cooldown check. -/
theorem C2_counterexample :
    (addQRCode initialState [88] 0).1 = true ∧
    (500 : Nat) - 0 < SCAN_COOLDOWN_DURATION ∧
    (addQRCode (addQRCode initialState [88] 0).2 [88] 500).1 = true ∧
    ((addQRCode (addQRCode initialState [88] 0).2 [88] 500).2.uniqueResults.map
      (fun e => e.2.count)) = [2] := by decide

/-- The maps produced by a decode-success cycle are exactly the maps of
folding `addQRCode` over the texts selected by `submittedTexts`. -/
theorem handleScanResults_aggregates (st : AppState) (inG outG : List (List Nat))
    (now : Nat) :
    (handleScanResults st inG outG now).1.uniqueResults =
      (foldAdd st (submittedTexts inG outG st.lastScanTime now) now).2.uniqueResults ∧
    (handleScanResults st inG outG now).1.recentScans =
      (foldAdd st (submittedTexts inG outG st.lastScanTime now) now).2.recentScans := by
  by_cases hin : inG = []
  · subst hin
    by_cases hout : outG = []
    · subst hout
      simp only [handleScanResults, submittedTexts, foldAdd]
      simp only [List.length_nil, gt_iff_lt, Nat.lt_irrefl, or_self, if_false,
        ne_eq, not_true_eq_false, false_and, if_neg (by simp : ¬ (False : Prop)),
        List.foldl_nil]
      split <;> simp
    · by_cases htime : now - st.lastScanTime > 1000
      · simp [handleScanResults, submittedTexts, foldAdd, hout, htime,
          List.length_pos.mpr hout]
      · simp [handleScanResults, submittedTexts, foldAdd, hout, htime,
          List.length_pos.mpr hout]
  · have hlen : inG.length > 0 := List.length_pos.mpr hin
    simp only [handleScanResults, submittedTexts, if_pos hin,
      if_pos (Or.inl hlen : inG.length > 0 ∨ outG.length > 0)]
    split <;> simp

/-- Claim C1 (amended): in a decode-success cycle, every in-guide
detection is submitted to `addQRCode` unconditionally, and out-of-guide
detections are submitted only when the cycle has NO in-guide detection and
strictly more than 1000ms have elapsed since the last accepted in-guide
detection (`lastScanTime`); when an in-guide detection is present, the
cycle's out-of-guide detections are discarded.  `submittedTexts` is tied
to the real cycle by the first conjunct. -/
theorem C1_dispatch (st : AppState) (inG outG : List (List Nat)) (now : Nat) :
    ((handleScanResults st inG outG now).1.uniqueResults =
      (foldAdd st (submittedTexts inG outG st.lastScanTime now) now).2.uniqueResults) ∧
    (∀ t ∈ inG, t ∈ submittedTexts inG outG st.lastScanTime now) ∧
    (inG = [] → now - st.lastScanTime > 1000 → ∀ t ∈ outG,
      t ∈ submittedTexts inG outG st.lastScanTime now) ∧
    (inG ≠ [] → submittedTexts inG outG st.lastScanTime now = inG) := by
  refine ⟨(handleScanResults_aggregates st inG outG now).1, ?_, ?_, ?_⟩
  · intro t ht
    have hin : inG ≠ [] := by rintro rfl; exact List.not_mem_nil t ht
    rw [submittedTexts, if_pos hin]; exact ht
  · intro hin htime t ht
    subst hin
    have hout : outG ≠ [] := by rintro rfl; exact List.not_mem_nil t ht
    rw [submittedTexts, if_neg (by simp), if_pos ⟨hout, htime⟩]; exact ht
  · intro hin
    rw [submittedTexts, if_pos hin]

/-- Witness for C1 (amended) at concrete cycles: an in-guide text is
submitted, and an out-of-guide text is submitted when no in-guide text is
present and 1500ms have elapsed. -/
theorem C1_dispatch_witness :
    [65] ∈ submittedTexts [[65]] [] initialState.lastScanTime 5 ∧
    [66] ∈ submittedTexts [] [[66]] initialState.lastScanTime 1500 :=
  ⟨(C1_dispatch initialState [[65]] [] 5).2.1 [65] (by decide),
   (C1_dispatch initialState [] [[66]] 1500).2.2.1 rfl (by decide) [66] (by decide)⟩

/-- Counterexample to C1 as stated: with the guide-relative classification
done, a cycle carrying in-guide "A" and out-of-guide "B" at 2000ms since
the last accepted detection submits only "A" — "B" is discarded because
the out-of-guide branch is an `else if` — and a cycle carrying only
out-of-guide "B" at exactly 1000ms elapsed submits nothing (the code
requires strictly more than 1000ms, the claim says at least 1000ms). -/
theorem C1_counterexample :
    ((2000 : Nat) - initialState.lastScanTime ≥ 1000 ∧
     submittedTexts [[65]] [[66]] initialState.lastScanTime 2000 = [[65]] ∧
     ((handleScanResults initialState [[65]] [[66]] 2000).1.uniqueResults.map
        (fun e => e.2.text)) = [[65]]) ∧
    ((1000 : Nat) - initialState.lastScanTime ≥ 1000 ∧
     submittedTexts [] [[66]] initialState.lastScanTime 1000 = [] ∧
     (handleScanResults initialState [] [[66]] 1000).1.uniqueResults = []) := by
  decide

/-- Interval adjustment keeps the interval inside the configured band. -/
theorem adjustInterval_mem (i : Nat) (pt : ℚ) (hlo : SCAN_INTERVAL_MIN ≤ i)
    (hhi : i ≤ SCAN_INTERVAL_MAX) :
    SCAN_INTERVAL_MIN ≤ adjustInterval i pt ∧
    adjustInterval i pt ≤ SCAN_INTERVAL_MAX := by
  rw [SCAN_INTERVAL_MIN, SCAN_INTERVAL_MAX] at *
  rw [adjustInterval, SCAN_INTERVAL_MIN, SCAN_INTERVAL_MAX]
  split_ifs <;> omega

theorem foldl_adjust_mem (samples : List ℚ) : ∀ i : Nat,
    SCAN_INTERVAL_MIN ≤ i → i ≤ SCAN_INTERVAL_MAX →
    SCAN_INTERVAL_MIN ≤ samples.foldl adjustInterval i ∧
    samples.foldl adjustInterval i ≤ SCAN_INTERVAL_MAX := by
  induction samples with
  | nil => intro i h1 h2; simpa using ⟨h1, h2⟩
  | cons a as ih =>
    intro i h1 h2
    rw [List.foldl_cons]
    have h := adjustInterval_mem i a h1 h2
    exact ih _ h.1 h.2

/-- Claim C6: from any interval in `[100, 500]`, an arbitrary sequence of
per-cycle latency samples (each +50 capped at 500 when above 100ms, −25
floored at 100 when below 50ms, unchanged otherwise) keeps the interval in
`[100, 500]`; and an accepted in-guide detection immediately sets the
interval to the maximum 500 (App.tsx line 399). -/
theorem C6_interval (i0 : Nat) (hlo : SCAN_INTERVAL_MIN ≤ i0)
    (hhi : i0 ≤ SCAN_INTERVAL_MAX) (samples : List ℚ) (st : AppState)
    (inG outG : List (List Nat)) (now : Nat) (hne : inG ≠ [])
    (hacc : (foldAdd st inG now).1 = true) :
    (SCAN_INTERVAL_MIN ≤ samples.foldl adjustInterval i0 ∧
     samples.foldl adjustInterval i0 ≤ SCAN_INTERVAL_MAX) ∧
    (handleScanResults st inG outG now).1.scanInterval = SCAN_INTERVAL_MAX := by
  refine ⟨foldl_adjust_mem samples i0 hlo hhi, ?_⟩
  simp [handleScanResults, List.length_pos.mpr hne, hne, hacc]

/-- Witness for C6 with interval 200, latency samples 30ms and 200ms, and
an accepted in-guide detection on the pristine state. -/
theorem C6_interval_witness :
    (SCAN_INTERVAL_MIN ≤ [(30 : ℚ), 200].foldl adjustInterval 200 ∧
     [(30 : ℚ), 200].foldl adjustInterval 200 ≤ SCAN_INTERVAL_MAX) ∧
    (handleScanResults initialState [[65]] [] 5).1.scanInterval = SCAN_INTERVAL_MAX :=
  C6_interval 200 (by decide) (by decide) [(30 : ℚ), 200] initialState [[65]] [] 5
    (by decide) (by decide)

/-- Claim C8: a decode timeout leaves the guide state unchanged and
schedules nothing; a genuine decode failure sets the guide state to
`error` with a 1000ms revert-to-`scanning` timer; an accepted in-guide
detection sets it to `success` with a 300ms revert-to-`scanning` timer. -/
theorem C8_guide_state (st : AppState) (now : Nat) (pt : ℚ)
    (inG outG : List (List Nat)) (hne : inG ≠ [])
    (hacc : (foldAdd st inG now).1 = true) :
    ((scanCycleStep st .timeout now pt).1.guideState = st.guideState ∧
     (scanCycleStep st .timeout now pt).2 = []) ∧
    ((scanCycleStep st .failure now pt).1.guideState = .error ∧
     (scanCycleStep st .failure now pt).2 = [(1000, .setGuide .scanning)]) ∧
    ((scanCycleStep st (.detections inG outG) now pt).1.guideState = .success ∧
     (scanCycleStep st (.detections inG outG) now pt).2 =
       [(300, .setGuide .scanning), (2000, .setIntervalDefault)]) := by
  refine ⟨⟨rfl, rfl⟩, ⟨rfl, rfl⟩, ?_⟩
  simp [scanCycleStep, handleScanResults, List.length_pos.mpr hne, hne, hacc]

/-- In a `descLS`-sorted list, the final element has the minimal
`lastSeen`. -/
theorem sorted_last_min {l : List (List Nat × UniqueQRResult)}
    {d : List Nat × UniqueQRResult} (hs : List.Sorted descLS (l ++ [d])) :
    ∀ e ∈ l ++ [d], d.2.lastSeen ≤ e.2.lastSeen := by
  intro e he
  rcases List.mem_append.mp he with h | h
  · exact (List.pairwise_append.mp hs).2.2 e h d (by simp)
  · simp only [List.mem_singleton] at h
    subst h; exact Nat.le_refl _

/-- An accepted call stores exactly `capUnique (upsertUnique ...)` as the
new unique-result map and `updateRecentScans ...` as the new cooldown
table. -/
theorem addQRCode_accepted_state {st : AppState} {text : List Nat} {now : Nat}
    (hacc : (addQRCode st text now).1 = true) :
    (addQRCode st text now).2.uniqueResults =
      capUnique (upsertUnique st.uniqueResults (fingerprint text) text now) ∧
    (addQRCode st text now).2.recentScans =
      updateRecentScans st.recentScans (fingerprint text) now := by
  by_cases hc : cooldownHit st.recentScans (fingerprint text) now
  · simp [addQRCode, hc] at hacc
  · simp [addQRCode, hc]

/-- Claim C3: over any run the unique-result map stays within the capacity
of 50, and when an upsert overflows the capacity, exactly one entry `d` is
evicted, `d` carries the minimal `lastSeen` of the overflowing map, and
every entry whose `lastSeen` is strictly above some other entry's (in
particular the strictly most recent one) survives. -/
theorem C3_capacity (calls : List (List Nat × Nat)) (st : AppState)
    (text : List Nat) (now : Nat)
    (hcap : st.uniqueResults.length ≤ MAX_UNIQUE_RESULTS)
    (hover : (upsertUnique st.uniqueResults (fingerprint text) text now).length >
      MAX_UNIQUE_RESULTS) :
    ((runAdds initialState calls).uniqueResults.length ≤ MAX_UNIQUE_RESULTS) ∧
    ((addQRCode st text now).1 = true →
      (addQRCode st text now).2.uniqueResults =
        capUnique (upsertUnique st.uniqueResults (fingerprint text) text now)) ∧
    (∃ d, d ∈ upsertUnique st.uniqueResults (fingerprint text) text now ∧
      (∀ e ∈ upsertUnique st.uniqueResults (fingerprint text) text now,
        d.2.lastSeen ≤ e.2.lastSeen) ∧
      List.Perm (upsertUnique st.uniqueResults (fingerprint text) text now)
        (d :: capUnique (upsertUnique st.uniqueResults (fingerprint text) text now)) ∧
      (∀ e ∈ upsertUnique st.uniqueResults (fingerprint text) text now,
        (∃ e2 ∈ upsertUnique st.uniqueResults (fingerprint text) text now,
          e2.2.lastSeen < e.2.lastSeen) →
        e ∈ capUnique (upsertUnique st.uniqueResults (fingerprint text) text now))) := by
  refine ⟨?_, fun hacc => (addQRCode_accepted_state hacc).1, ?_⟩
  · refine runAdds_inv
      (fun s => s.uniqueResults.length ≤ MAX_UNIQUE_RESULTS) ?_ calls initialState
      (by simp [initialState])
    intro s t n hs
    by_cases hc : cooldownHit s.recentScans (fingerprint t) n
    · simpa [addQRCode, hc] using hs
    · simpa [addQRCode, hc] using capUnique_length_le _
  · set up := upsertUnique st.uniqueResults (fingerprint text) text now with hup
    have hlen : up.length = MAX_UNIQUE_RESULTS + 1 := by
      have hle := upsertUnique_length_le st.uniqueResults (fingerprint text) text now
      rw [← hup] at hle
      omega
    have hperm : List.Perm (sortByLastSeenDesc up) up :=
      List.perm_insertionSort descLS up
    have hslen : (sortByLastSeenDesc up).length = MAX_UNIQUE_RESULTS + 1 := by
      rw [hperm.length_eq, hlen]
    obtain ⟨d, hd⟩ : ∃ d, (sortByLastSeenDesc up).drop MAX_UNIQUE_RESULTS = [d] := by
      apply List.length_eq_one.mp
      rw [List.length_drop, hslen]
      omega
    have hsplit : sortByLastSeenDesc up =
        (sortByLastSeenDesc up).take MAX_UNIQUE_RESULTS ++ [d] := by
      conv_lhs => rw [← List.take_append_drop MAX_UNIQUE_RESULTS (sortByLastSeenDesc up)]
      rw [hd]
    have hcapEq : capUnique up = (sortByLastSeenDesc up).take MAX_UNIQUE_RESULTS := by
      rw [capUnique, if_pos hover]
    have hsSorted : List.Sorted descLS (sortByLastSeenDesc up) :=
      List.sorted_insertionSort descLS up
    have hmin : ∀ e ∈ sortByLastSeenDesc up, d.2.lastSeen ≤ e.2.lastSeen := by
      have := sorted_last_min (hsplit ▸ hsSorted)
      intro e he
      exact this e (hsplit ▸ he)
    refine ⟨d, ?_, ?_, ?_, ?_⟩
    · exact hperm.subset (by rw [hsplit]; simp)
    · intro e he
      exact hmin e (hperm.symm.subset he)
    · have h1 : List.Perm up
          ((sortByLastSeenDesc up).take MAX_UNIQUE_RESULTS ++ [d]) := by
        rw [← hsplit]; exact hperm.symm
      have h2 := List.perm_append_singleton d
        ((sortByLastSeenDesc up).take MAX_UNIQUE_RESULTS)
      rw [hcapEq]
      exact h1.trans h2
    · intro e he hex
      obtain ⟨e2, he2, hlt⟩ := hex
      have hes : e ∈ sortByLastSeenDesc up := hperm.symm.subset he
      rcases List.mem_append.mp (hsplit ▸ hes) with h | h
      · rw [hcapEq]; exact h
      · simp only [List.mem_singleton] at h
        subst h
        have := hmin e2 (hperm.symm.subset he2)
        omega

/-- Fifty distinct pre-existing unique results, for the C3 witness. -/
def fiftyEntries : List (List Nat × UniqueQRResult) :=
  (List.range 50).map (fun i => ([i], ⟨[i], [i], i, i, 1⟩))

/-- A state whose unique-result map is at capacity. -/
def fiftyState : AppState := { initialState with uniqueResults := fiftyEntries }

/-- Witness for C3: inserting "X" into a map already holding 50 entries. -/
theorem C3_capacity_witness :
    fiftyState.uniqueResults.length ≤ MAX_UNIQUE_RESULTS ∧
    (upsertUnique fiftyState.uniqueResults (fingerprint [88]) [88] 100).length >
      MAX_UNIQUE_RESULTS ∧
    (((runAdds initialState []).uniqueResults.length ≤ MAX_UNIQUE_RESULTS) ∧
     ((addQRCode fiftyState [88] 100).1 = true →
       (addQRCode fiftyState [88] 100).2.uniqueResults =
         capUnique (upsertUnique fiftyState.uniqueResults (fingerprint [88]) [88] 100)) ∧
     (∃ d, d ∈ upsertUnique fiftyState.uniqueResults (fingerprint [88]) [88] 100 ∧
       (∀ e ∈ upsertUnique fiftyState.uniqueResults (fingerprint [88]) [88] 100,
         d.2.lastSeen ≤ e.2.lastSeen) ∧
       List.Perm (upsertUnique fiftyState.uniqueResults (fingerprint [88]) [88] 100)
         (d :: capUnique (upsertUnique fiftyState.uniqueResults (fingerprint [88]) [88] 100)) ∧
       (∀ e ∈ upsertUnique fiftyState.uniqueResults (fingerprint [88]) [88] 100,
         (∃ e2 ∈ upsertUnique fiftyState.uniqueResults (fingerprint [88]) [88] 100,
           e2.2.lastSeen < e.2.lastSeen) →
         e ∈ capUnique (upsertUnique fiftyState.uniqueResults (fingerprint [88]) [88] 100)))) :=
  ⟨by decide, by decide, C3_capacity [] fiftyState [88] 100 (by decide) (by decide)⟩

/-- Specification of the `setRecentScans` updater: all surviving entries
are within the 10s TTL of `now`, the bound of 20 holds given it held
before, and an overflow evicts a minimal-timestamp entry. -/
theorem updateRecentScans_spec (rs : List (List Nat × Nat)) (h : List Nat)
    (now : Nat) (hcap : rs.length ≤ MAX_RECENT_SCANS) :
    (∀ e ∈ updateRecentScans rs h now, now - e.2 ≤ SCAN_HISTORY_TTL) ∧
    (updateRecentScans rs h now).length ≤ MAX_RECENT_SCANS ∧
    ((mapSet (purgeOld rs now) h now).length > MAX_RECENT_SCANS →
      ∃ d, d ∈ mapSet (purgeOld rs now) h now ∧
        (∀ e ∈ mapSet (purgeOld rs now) h now, d.2 ≤ e.2) ∧
        updateRecentScans rs h now = mapDelete (mapSet (purgeOld rs now) h now) d.1) := by
  have hmem2 : ∀ e ∈ mapSet (purgeOld rs now) h now, now - e.2 ≤ SCAN_HISTORY_TTL := by
    intro e he
    rcases mem_mapSet_timestamps he with h0 | h0
    · rw [h0]; simp
    · exact (mem_purgeOld h0).2
  have hlen2 : (mapSet (purgeOld rs now) h now).length ≤ MAX_RECENT_SCANS + 1 := by
    have h1 := List.length_filter_le
      (fun e => decide (¬ (now - e.2 > SCAN_HISTORY_TTL))) rs
    have h2 := mapSet_length_le (purgeOld rs now) h now
    rw [purgeOld] at *
    omega
  have hsperm : List.Perm (sortByTimeAsc (mapSet (purgeOld rs now) h now))
      (mapSet (purgeOld rs now) h now) :=
    List.perm_insertionSort ascTime _
  by_cases hover : (mapSet (purgeOld rs now) h now).length > MAX_RECENT_SCANS
  · have hne : sortByTimeAsc (mapSet (purgeOld rs now) h now) ≠ [] := by
      intro hnil
      have := hsperm.length_eq
      rw [hnil] at this
      simp only [List.length_nil] at this
      rw [MAX_RECENT_SCANS] at hover
      omega
    obtain ⟨d, tail, hd⟩ := List.exists_cons_of_ne_nil hne
    have hdmem : d ∈ mapSet (purgeOld rs now) h now :=
      hsperm.subset (by rw [hd]; simp)
    have heq : updateRecentScans rs h now =
        mapDelete (mapSet (purgeOld rs now) h now) d.1 := by
      rw [updateRecentScans, evictOldestScan, if_pos hover, hd]
    have hmin : ∀ e ∈ mapSet (purgeOld rs now) h now, d.2 ≤ e.2 := by
      intro e he
      have hes : e ∈ sortByTimeAsc (mapSet (purgeOld rs now) h now) :=
        hsperm.symm.subset he
      rw [hd] at hes
      rcases List.mem_cons.mp hes with h0 | h0
      · rw [h0]
      · have hsorted : List.Sorted ascTime
            (sortByTimeAsc (mapSet (purgeOld rs now) h now)) :=
          List.sorted_insertionSort ascTime _
        rw [hd] at hsorted
        exact List.rel_of_sorted_cons hsorted e h0
    refine ⟨?_, ?_, fun _ => ⟨d, hdmem, hmin, heq⟩⟩
    · intro e he
      rw [heq] at he
      exact hmem2 e (mapDelete_subset he)
    · rw [heq]
      have := mapDelete_length_lt (m := mapSet (purgeOld rs now) h now)
        (k := d.1) (v := d.2) (by simpa using hdmem)
      omega
  · have heq : updateRecentScans rs h now = mapSet (purgeOld rs now) h now := by
      rw [updateRecentScans, evictOldestScan, if_neg hover]
    refine ⟨?_, ?_, fun hc => absurd hc hover⟩
    · rw [heq]; exact hmem2
    · rw [heq]; omega

/-- Claim C9: every accepted `addQRCode` call purges the cooldown table
inline: afterwards every entry is within the 10000ms TTL of `now` and the
table holds at most 20 entries; the bound also holds across any run from
the initial state, and when the purge-plus-insert overflows the bound the
single evicted entry is one with the minimal (least-recently-refreshed)
timestamp. -/
theorem C9_recent_scans (calls : List (List Nat × Nat)) (st : AppState)
    (text : List Nat) (now : Nat)
    (hcap : st.recentScans.length ≤ MAX_RECENT_SCANS)
    (hacc : (addQRCode st text now).1 = true) :
    ((runAdds initialState calls).recentScans.length ≤ MAX_RECENT_SCANS) ∧
    (∀ e ∈ (addQRCode st text now).2.recentScans, now - e.2 ≤ SCAN_HISTORY_TTL) ∧
    ((addQRCode st text now).2.recentScans.length ≤ MAX_RECENT_SCANS) ∧
    ((mapSet (purgeOld st.recentScans now) (fingerprint text) now).length >
        MAX_RECENT_SCANS →
      ∃ d, d ∈ mapSet (purgeOld st.recentScans now) (fingerprint text) now ∧
        (∀ e ∈ mapSet (purgeOld st.recentScans now) (fingerprint text) now,
          d.2 ≤ e.2) ∧
        (addQRCode st text now).2.recentScans =
          mapDelete (mapSet (purgeOld st.recentScans now) (fingerprint text) now)
            d.1) := by
  have hs := addQRCode_accepted_state hacc
  have hspec := updateRecentScans_spec st.recentScans (fingerprint text) now hcap
  refine ⟨?_, ?_, ?_, ?_⟩
  · refine runAdds_inv
      (fun s => s.recentScans.length ≤ MAX_RECENT_SCANS) ?_ calls initialState
      (by simp [initialState])
    intro s t n hsn
    by_cases hc : cooldownHit s.recentScans (fingerprint t) n
    · simpa [addQRCode, hc] using hsn
    · have := (updateRecentScans_spec s.recentScans (fingerprint t) n hsn).2.1
      simpa [addQRCode, hc] using this
  · rw [hs.2]; exact hspec.1
  · rw [hs.2]; exact hspec.2.1
  · intro hover
    obtain ⟨d, h1, h2, h3⟩ := hspec.2.2 hover
    exact ⟨d, h1, h2, by rw [hs.2, h3]⟩

/-- Twenty fresh cooldown entries with nonzero timestamps, for the C9
witness. -/
def twentyScans : List (List Nat × Nat) :=
  (List.range 20).map (fun i => ([i], i + 1))

/-- A state whose cooldown table is at its bound. -/
def twentyState : AppState := { initialState with recentScans := twentyScans }

/-- Witness for C9: an accepted detection on a full 20-entry cooldown
table at `now = 100`. -/
theorem C9_recent_scans_witness :
    twentyState.recentScans.length ≤ MAX_RECENT_SCANS ∧
    (addQRCode twentyState [88] 100).1 = true ∧
    (((runAdds initialState []).recentScans.length ≤ MAX_RECENT_SCANS) ∧
     (∀ e ∈ (addQRCode twentyState [88] 100).2.recentScans,
       100 - e.2 ≤ SCAN_HISTORY_TTL) ∧
     ((addQRCode twentyState [88] 100).2.recentScans.length ≤ MAX_RECENT_SCANS) ∧
     ((mapSet (purgeOld twentyState.recentScans 100) (fingerprint [88]) 100).length >
         MAX_RECENT_SCANS →
       ∃ d, d ∈ mapSet (purgeOld twentyState.recentScans 100) (fingerprint [88]) 100 ∧
         (∀ e ∈ mapSet (purgeOld twentyState.recentScans 100) (fingerprint [88]) 100,
           d.2 ≤ e.2) ∧
         (addQRCode twentyState [88] 100).2.recentScans =
           mapDelete
             (mapSet (purgeOld twentyState.recentScans 100) (fingerprint [88]) 100)
             d.1)) :=
  ⟨by decide, by decide, C9_recent_scans [] twentyState [88] 100 (by decide) (by decide)⟩

/-- Guide region of the C4 failing input: positive 10x10 region at
`(left, top) = (10, 0)` with its `center` field consistently at
`(15, 5)`. -/
def c4Guide : GuideRegion := ⟨0, 10, 10, 10, 15, 5⟩

/-- Corner points of the C4 failing input: a wide detection whose centroid
is exactly the guide center `(15, 5)`. -/
def c4Quad : Quad := ⟨⟨0, 4⟩, ⟨30, 4⟩, ⟨0, 6⟩, ⟨30, 6⟩⟩

/-- Claim C4 evaluated at the failing input: the guide region has positive
width and height and its `center` field is consistent, the detection's
centroid (the average of the four corner points, at display scale 1) is
exactly the guide center — yet the classification the scan cycle applies
(`isQRInGuide` over the `displayBounds` it builds) returns `false`,
because App.tsx stores the centroid in `displayBounds.x/y` while
`isQRInGuide` adds `width / 2` and `height / 2` once more, so the tested
point is the centroid shifted by half the detection size. -/
theorem C4_centroid_misclassified :
    c4Guide.width > 0 ∧ c4Guide.height > 0 ∧
    c4Guide.centerX = c4Guide.left + c4Guide.width / 2 ∧
    c4Guide.centerY = c4Guide.top + c4Guide.height / 2 ∧
    (c4Quad.topLeft.x + c4Quad.topRight.x + c4Quad.bottomLeft.x +
      c4Quad.bottomRight.x) / 4 = c4Guide.centerX ∧
    (c4Quad.topLeft.y + c4Quad.topRight.y + c4Quad.bottomLeft.y +
      c4Quad.bottomRight.y) / 4 = c4Guide.centerY ∧
    classifyInGuide c4Quad 1 1 c4Guide = false := by
  refine ⟨by norm_num [c4Guide], by norm_num [c4Guide], by norm_num [c4Guide],
    by norm_num [c4Guide], by norm_num [c4Guide, c4Quad],
    by norm_num [c4Guide, c4Quad], ?_⟩
  norm_num [classifyInGuide, displayBoundsOf, isQRInGuide, c4Guide, c4Quad]

/-- Witness for C8 on the pristine state with an accepted in-guide
detection. -/
theorem C8_guide_state_witness :
    ((scanCycleStep initialState .timeout 5 0).1.guideState = initialState.guideState ∧
     (scanCycleStep initialState .timeout 5 0).2 = []) ∧
    ((scanCycleStep initialState .failure 5 0).1.guideState = .error ∧
     (scanCycleStep initialState .failure 5 0).2 = [(1000, .setGuide .scanning)]) ∧
    ((scanCycleStep initialState (.detections [[65]] []) 5 0).1.guideState = .success ∧
     (scanCycleStep initialState (.detections [[65]] []) 5 0).2 =
       [(300, .setGuide .scanning), (2000, .setIntervalDefault)]) :=
  C8_guide_state initialState 5 0 [[65]] [] (by decide) (by decide)

end QR
